import Mathlib

/-!
# Verification of the PR review agent (`src/agent.ts`)

This file gives a shallow embedding, in Lean 4, of the core pipeline of the
pull-request review agent: prompt construction (`analyzeCode`, lines 242-283),
marker search and slicing of the model reply (lines 290-293), the
`xml2js`-style parse and field-access chain (lines 296-311), review rendering
and submission data (`submitReview`, lines 316-352), context assembly
(`handlePullRequestOpened`, lines 367-378), and cost accounting
(`calculateCosts`, lines 197-212).

Modelling conventions:
* JavaScript strings are Lean `String`s (lists of characters; UTF-16 details
  are irrelevant to the properties proved here).
* JavaScript `undefined` and runtime `TypeError`s are modelled explicitly:
  values flowing out of the XML parse are `JsValue`s, and property access /
  indexing / `.map` on them returns `Except JsErr _`, erroring exactly where
  the JavaScript would throw.
* `parseInt` results are `Option Int`, with `none` playing the role of `NaN`.
* The `xml2js` `parseStringPromise` call is embedded as a small strict XML
  parser plus the `xml2js` object-shape conversion (children grouped by tag
  name into arrays, text-only elements collapsed to strings, whitespace-only
  text dropped).  XML attributes, entity references, CDATA, comments and
  processing instructions do not occur in any input considered here and are
  not modelled: the embedded parser rejects them, as the strict `sax` parser
  rejects the fragment inputs relevant below.
* JavaScript floating-point numbers in the cost calculation are modelled as
  rationals; the token counts involved are far below any precision loss.
-/

/-! ## JavaScript string primitives -/

/-- `startsWith hay pat` : `pat` is a leading block of `hay`. -/
def startsWith : List Char → List Char → Bool
  | _, [] => true
  | [], _ :: _ => false
  | c :: t, p :: ps => c == p && startsWith t ps

/-- First index at which `pat` occurs in `hay` (the search of
`String.prototype.indexOf`), `none` when it does not occur. -/
def subIndex : List Char → List Char → Option Nat
  | [], pat => if startsWith [] pat then some 0 else none
  | c :: t, pat =>
    if startsWith (c :: t) pat then some 0
    else (subIndex t pat).map (fun n => n + 1)

/-- `String.prototype.indexOf`: first occurrence index, `-1` when absent. -/
def jsIndexOf (s pat : String) : Int :=
  match subIndex s.data pat.data with
  | some n => (n : Int)
  | none => -1

/-- Boolean substring test (used to state hypotheses about marker presence). -/
def containsStr (hay pat : String) : Bool :=
  (subIndex hay.data pat.data).isSome

/-- Clamping of one `slice` argument, as in `String.prototype.slice`. -/
def jsSliceBound (len : Nat) (i : Int) : Nat :=
  if i < 0 then (max ((len : Int) + i) 0).toNat else min i.toNat len

/-- `String.prototype.slice` with two (possibly negative) arguments. -/
def jsSlice (s : String) (start stop : Int) : String :=
  let b := jsSliceBound s.data.length start
  let e := jsSliceBound s.data.length stop
  ⟨(s.data.drop b).take (e - b)⟩

/-- `Array.prototype.join`: concatenation with a separator. -/
def joinSep (sep : String) : List String → String
  | [] => ""
  | [x] => x
  | x :: y :: xs => x ++ (sep ++ joinSep sep (y :: xs))

/-- The value of `c || d` for an optional string `c`: JavaScript `||`
returns the fallback both for `undefined` and for the (falsy) empty
string. -/
def jsOrElse (c : Option String) (d : String) : String :=
  match c with
  | none => d
  | some s => if s = "" then d else s

/-- `needle` occurs verbatim inside `hay`. -/
def strOccurs (needle hay : String) : Prop :=
  ∃ p q : List Char, hay.data = p ++ needle.data ++ q

/-! ## JavaScript `parseInt` (radix argument omitted) -/

/-- Whitespace skipped by `parseInt`. -/
def isJsWs (c : Char) : Bool :=
  c = ' ' || c = '\t' || c = '\n' || c = '\r' || c = '\x0b' || c = '\x0c'

def isHexDigitCh (c : Char) : Bool :=
  c.isDigit || ('a' ≤ c && c ≤ 'f') || ('A' ≤ c && c ≤ 'F')

def hexDigitVal (c : Char) : Int :=
  if c.isDigit then (c.toNat - '0'.toNat : Nat)
  else if 'a' ≤ c && c ≤ 'f' then ((c.toNat - 'a'.toNat : Nat) + 10 : Nat)
  else ((c.toNat - 'A'.toNat : Nat) + 10 : Nat)

/-- The optional sign step of `parseInt`. -/
def jsSign : List Char → Int × List Char
  | '-' :: t => (-1, t)
  | '+' :: t => (1, t)
  | cs => (1, cs)

/-- The radix-detection step of `parseInt` with no radix argument: a
`0x`/`0X` prefix selects base 16, otherwise base 10. -/
def jsBase : List Char → Int × List Char
  | '0' :: 'x' :: t => (16, t)
  | '0' :: 'X' :: t => (16, t)
  | cs => (10, cs)

/-- ECMAScript `parseInt(s)` with the radix argument omitted: skip
whitespace, optional sign, a `0x`/`0X` prefix selects base 16, then the
longest run of digits of the selected base; `none` models `NaN`. -/
def jsParseInt (s : String) : Option Int :=
  let cs := s.data.dropWhile isJsWs
  let signed := jsSign cs
  let based := jsBase signed.2
  let digits :=
    based.2.takeWhile (fun c => if based.1 = 16 then isHexDigitCh c else c.isDigit)
  if digits.isEmpty then none
  else some (signed.1 * digits.foldl (fun a c => a * based.1 + hexDigitVal c) 0)

/-- The positional decimal value of a digit string (used to state what
"the numeric prefix" of a line field denotes). -/
def decValue (ds : List Char) : Int :=
  ds.foldl (fun a c => a * 10 + ((c.toNat - '0'.toNat : Nat) : Int)) 0

/-! ## Cost accounting (`calculateCosts`, `src/agent.ts` lines 197-212) -/

structure Usage where
  promptTokens : ℚ
  completionTokens : ℚ
deriving Repr, DecidableEq

structure CostBreakdown where
  cachedInputCost : ℚ
  uncachedInputCost : ℚ
  outputCost : ℚ
  totalCost : ℚ
deriving Repr, DecidableEq

/-- `calculateCosts(usage, experimental_providerMetadata)`.  The optional
`cachedPromptTokens` argument models the chain
`experimental_providerMetadata?.openai?.cachedPromptTokens ?? 0`.
`1.5` is written `3 / 2`. -/
def calculateCosts (usage : Usage) (cachedPromptTokens : Option ℚ) : CostBreakdown :=
  let cachedTokens : ℚ := cachedPromptTokens.getD 0
  let uncachedTokens : ℚ := usage.promptTokens - cachedTokens
  let cachedInputCost : ℚ := cachedTokens / 1000000 * (3 / 2)
  let uncachedInputCost : ℚ := uncachedTokens / 1000000 * 3
  let outputCost : ℚ := usage.completionTokens / 1000000 * 12
  ⟨cachedInputCost, uncachedInputCost, outputCost,
    cachedInputCost + uncachedInputCost + outputCost⟩

/-! ## Context assembly (`handlePullRequestOpened`, lines 367-378) -/

/-- One item of the `pulls.listFiles` response, as read by the code. -/
structure RawPullFile where
  filename : String
  patch : String
  status : String
  additions : Int
  deletions : Int
deriving Repr, DecidableEq

/-- The `FileChange` record of `src/agent.ts` (lines 27-34).  `content`
is `none` when `getFileContent` failed (its rejection is mapped to
`undefined` by `.catch(() => undefined)`). -/
structure FileChange where
  filename : String
  patch : String
  status : String
  additions : Int
  deletions : Int
  content : Option String
deriving Repr, DecidableEq

/-- The per-file record built inside `Promise.all` (lines 369-378).
`fetchContent` abstracts `getFileContent(owner, repo, path, headRef)` with
the failure-to-`undefined` `.catch` already applied; owner, repo and ref
are fixed for the whole request. -/
def assembleFile (fetchContent : String → Option String) (f : RawPullFile) : FileChange :=
  ⟨f.filename, f.patch, f.status, f.additions, f.deletions, fetchContent f.filename⟩

/-- `changedFiles`: the `Promise.all` over the file list. -/
def assembleFiles (fetchContent : String → Option String)
    (files : List RawPullFile) : List FileChange :=
  files.map (assembleFile fetchContent)

/-! ## Prompt builder (`analyzeCode`, lines 242-283) -/

/-- The fixed placeholder written when a file's content is unavailable. -/
def contentPlaceholder : String := "N/A"

/-- The per-file block of the prompt template (lines 252-261):
the template literal
`\nFile: ...\nStatus: ...\nDiff:\n...\n\nCurrent Content:\n...\n`. -/
def fileSection (f : FileChange) : String :=
  "\nFile: " ++ f.filename ++ "\nStatus: " ++ f.status ++ "\nDiff:\n" ++ f.patch
    ++ "\n\nCurrent Content:\n" ++ jsOrElse f.content contentPlaceholder ++ "\n"

/-- The trailing instruction block of the prompt (lines 264-283). -/
def promptTail : String :=
  "\n\nProvide your review in the following XML format:\n<review>\n  <summary>High-level overview of changes</summary>\n  <fileAnalyses>\n    <file>\n      <path>file path</path>\n      <analysis>Detailed analysis of changes</analysis>\n      <suggestedComments>\n        <comment>\n          <line>line_number</line>\n          <body>Specific comment or suggestion</body>\n        </comment>\n      </suggestedComments>\n    </file>\n  </fileAnalyses>\n  <overallSuggestions>\n    <suggestion>First suggestion for improvement</suggestion>\n    <suggestion>Second suggestion for improvement</suggestion>\n  </overallSuggestions>\n</review>"

/-- The full prompt string of `analyzeCode` (lines 242-283). -/
def analyzePrompt (title : String) (changedFiles : List FileChange)
    (commitMessages : List String) : String :=
  "You are an expert code reviewer. Analyze these pull request changes and provide detailed feedback:\n\nContext:\nPR Title: "
    ++ title
    ++ "\nCommit Messages: \n"
    ++ joinSep "\n" (commitMessages.map (fun msg => "- " ++ msg))
    ++ "\n\nChanged Files:\n"
    ++ joinSep "\n---\n" (changedFiles.map fileSection)
    ++ promptTail

/-! ## XML parsing (`parseStringPromise` of `xml2js`, used at lines 296, 112)

A strict XML fragment parser in the spirit of the `sax` parser used by
`xml2js` (strict mode): a document is optional whitespace, one element,
optional whitespace.  Elements carry no attributes (none occur in the inputs
considered); mismatched or unclosed tags and text outside the root are
errors, as in strict `sax`. -/

inductive Xml where
  | elem (name : String) (children : List Xml)
  | text (s : String)
deriving Repr

def isXmlWs (c : Char) : Bool :=
  c = ' ' || c = '\n' || c = '\t' || c = '\r'

def isNameChar (c : Char) : Bool :=
  c.isAlphanum || c = '_' || c = '-' || c = ':' || c = '.'

mutual

/-- Parse one element starting at `<`.  `fuel` only forces termination;
`2 * length + 4` is always enough (each call consumes input). -/
def parseElem : Nat → List Char → Except String (Xml × List Char)
  | 0, _ => .error "fuel exhausted"
  | fuel + 1, cs =>
    match cs with
    | '<' :: rest =>
      let name := rest.takeWhile isNameChar
      if name.isEmpty then .error "expected element name"
      else
        match (rest.drop name.length).dropWhile isXmlWs with
        | '/' :: '>' :: rest3 => .ok (.elem ⟨name⟩ [], rest3)
        | '>' :: rest3 =>
          match parseContent fuel rest3 with
          | .error e => .error e
          | .ok (children, rest4) =>
            match rest4 with
            | '<' :: '/' :: rest5 =>
              let cname := rest5.takeWhile isNameChar
              if cname = name then
                match (rest5.drop cname.length).dropWhile isXmlWs with
                | '>' :: rest6 => .ok (.elem ⟨name⟩ children, rest6)
                | _ => .error "malformed close tag"
              else .error "mismatched close tag"
            | _ => .error "expected close tag"
        | _ => .error "malformed open tag"
    | _ => .error "expected element"

/-- Parse a run of child nodes, stopping before a close tag. -/
def parseContent : Nat → List Char → Except String (List Xml × List Char)
  | 0, _ => .error "fuel exhausted"
  | fuel + 1, cs =>
    match cs with
    | [] => .error "unexpected end of input"
    | '<' :: '/' :: _ => .ok ([], cs)
    | '<' :: rest =>
      match parseElem fuel ('<' :: rest) with
      | .error e => .error e
      | .ok (x, rest2) =>
        match parseContent fuel rest2 with
        | .error e => .error e
        | .ok (xs, rest3) => .ok (x :: xs, rest3)
    | c :: rest =>
      let txt := (c :: rest).takeWhile (fun d => d ≠ '<')
      match parseContent fuel ((c :: rest).drop txt.length) with
      | .error e => .error e
      | .ok (xs, rest2) => .ok (.text ⟨txt⟩ :: xs, rest2)

end

/-- Parse a whole document: optional surrounding whitespace, one element. -/
def xmlParse (s : String) : Except String Xml :=
  let cs := s.data.dropWhile isXmlWs
  match parseElem (2 * cs.length + 4) cs with
  | .error e => .error e
  | .ok (x, rest) =>
    if (rest.dropWhile isXmlWs).isEmpty then .ok x
    else .error "text after root element"

/-! ## The `xml2js` value shape -/

/-- Runtime JavaScript values produced by `parseStringPromise` and flowing
through the field-access chain of `analyzeCode`. -/
inductive JsValue where
  | str (s : String)
  | arr (elems : List JsValue)
  | obj (fields : List (String × JsValue))
  | undefined
deriving Repr

/-- Runtime failures: an XML parse rejection (a rejected promise from
`parseStringPromise`) or a `TypeError` from accessing `undefined` /
calling `.map` on a non-array. -/
inductive JsErr where
  | parseError (msg : String)
  | typeError (msg : String)
deriving Repr, DecidableEq

def isErr {ε α : Type} : Except ε α → Bool
  | .error _ => true
  | .ok _ => false

/-- Concatenated text of an element's children (the `xml2js` char-key
accumulation). -/
def childrenText : List Xml → String
  | [] => ""
  | .text s :: rest => s ++ childrenText rest
  | .elem _ _ :: rest => childrenText rest

/-- Group `(name, value)` pairs by name, keeping first-occurrence key order
and document order inside each group. -/
def insertGrouped (acc : List (String × List JsValue)) (name : String)
    (v : JsValue) : List (String × List JsValue) :=
  match acc with
  | [] => [(name, [v])]
  | (n, vs) :: rest =>
    if n = name then (n, vs ++ [v]) :: rest
    else (n, vs) :: insertGrouped rest name v

def groupPairsAux (acc : List (String × List JsValue)) :
    List (String × JsValue) → List (String × List JsValue)
  | [] => acc
  | (n, v) :: rest => groupPairsAux (insertGrouped acc n v) rest

def allWsStr (s : String) : Bool := s.data.all isXmlWs

mutual

/-- The `xml2js` (default options) conversion of a parsed element: an
element whose children are only text becomes that text as a string (the
empty string when the text is empty or whitespace-only); an element with
child elements becomes an object mapping each child tag name to the array
of converted children, with non-whitespace mixed text under `"_"`. -/
def convert : Xml → JsValue
  | .text s => .str s
  | .elem _ children =>
    let txt := childrenText children
    let pairs := convertPairs children
    if pairs.isEmpty then .str (if allWsStr txt then "" else txt)
    else
      .obj ((groupPairsAux [] pairs).map (fun p => (p.1, JsValue.arr p.2))
        ++ (if allWsStr txt then [] else [("_", JsValue.str txt)]))

def convertPairs : List Xml → List (String × JsValue)
  | [] => []
  | .text _ :: rest => convertPairs rest
  | .elem n cs :: rest => (n, convert (.elem n cs)) :: convertPairs rest

end

def xmlRootName : Xml → String
  | .elem n _ => n
  | .text _ => ""

/-- `parseStringPromise(s)`: parse and wrap under the root tag name
(`explicitRoot`, the default). -/
def parseStringModel (s : String) : Except JsErr JsValue :=
  match xmlParse s with
  | .error e => .error (.parseError e)
  | .ok x => .ok (.obj [(xmlRootName x, convert x)])

/-! ## JavaScript property access, indexing, `.map`, stringification -/

/-- `v[k]` for a string key: throws on `undefined`, is `undefined` on
strings/arrays (no such property) and on objects without the key. -/
def jsGet : JsValue → String → Except JsErr JsValue
  | .undefined, k => .error (.typeError ("cannot read properties of undefined (reading " ++ k ++ ")"))
  | .str _, _ => .ok .undefined
  | .arr _, _ => .ok .undefined
  | .obj fs, k =>
    .ok (match fs.find? (fun p => p.1 == k) with
      | some p => p.2
      | none => .undefined)

/-- `v[i]` for a numeric index: throws on `undefined`; a string yields its
`i`-th character; an array its `i`-th element; an object `undefined`. -/
def jsIndex : JsValue → Nat → Except JsErr JsValue
  | .undefined, _ => .error (.typeError "cannot read properties of undefined (reading 0)")
  | .str s, i =>
    .ok (match s.data.get? i with
      | some c => .str ⟨[c]⟩
      | none => .undefined)
  | .arr xs, i =>
    .ok (match xs.get? i with
      | some v => v
      | none => .undefined)
  | .obj _, _ => .ok .undefined

/-- `v.map(f)`: only arrays have `.map`; anything else throws. -/
def jsMapM {α : Type} (v : JsValue) (f : JsValue → Except JsErr α) :
    Except JsErr (List α) :=
  match v with
  | .arr xs => xs.mapM f
  | _ => .error (.typeError "map is not a function")

mutual

/-- JavaScript `String(v)` for the values occurring here.  Inside an array
join, `undefined` renders as the empty string. -/
def jsToString : JsValue → String
  | .str s => s
  | .undefined => "undefined"
  | .obj _ => "[object Object]"
  | .arr xs => joinSep "," (jsToStringElems xs)

def jsToStringElems : List JsValue → List String
  | [] => []
  | .undefined :: rest => "" :: jsToStringElems rest
  | v :: rest => jsToString v :: jsToStringElems rest

end

/-- `parseInt(v)` on a JavaScript value: stringify, then `jsParseInt`. -/
def jsParseIntV (v : JsValue) : Option Int :=
  jsParseInt (jsToString v)

/-! ## Structured extraction (`analyzeCode`, lines 290-311) -/

def openMarker : String := "<review>"
def closeMarker : String := "</review>"

/-- Lines 291-293:
`xmlStart = text.indexOf("<review>")`,
`xmlEnd = text.indexOf("</review>") + "</review>".length`,
`xmlResponse = text.slice(xmlStart, xmlEnd)`. -/
def extractSpan (text : String) : String :=
  jsSlice text (jsIndexOf text openMarker)
    (jsIndexOf text closeMarker + (closeMarker.length : Int))

/-- One entry of `suggestedComments` after the mapping at lines 304-307:
`{ line: parseInt(comment.line[0]), body: comment.body[0] }`. -/
structure SuggestedComment where
  line : Option Int
  body : JsValue
deriving Repr

/-- One entry of `fileAnalyses` after the mapping at lines 301-308. -/
structure FileAnalysisEntry where
  path : JsValue
  analysis : JsValue
  suggestedComments : List SuggestedComment
deriving Repr

/-- The `CodeAnalysis` record (lines 44-53) as built at lines 299-310.
The fields hold the raw JavaScript values the accesses produce; the
TypeScript annotations (`string`, `string[]`) are not checked at runtime. -/
structure CodeAnalysis where
  summary : JsValue
  fileAnalyses : List FileAnalysisEntry
  overallSuggestions : JsValue
deriving Repr

/-- `(comment) => ({ line: parseInt(comment.line[0]), body: comment.body[0] })`. -/
def parseCommentEntry (comment : JsValue) : Except JsErr SuggestedComment := do
  let lineArr ← jsGet comment "line"
  let line0 ← jsIndex lineArr 0
  let bodyArr ← jsGet comment "body"
  let body0 ← jsIndex bodyArr 0
  .ok ⟨jsParseIntV line0, body0⟩

/-- The per-file mapping at lines 301-308. -/
def parseFileEntry (file : JsValue) : Except JsErr FileAnalysisEntry := do
  let pathArr ← jsGet file "path"
  let path0 ← jsIndex pathArr 0
  let analysisArr ← jsGet file "analysis"
  let analysis0 ← jsIndex analysisArr 0
  let scArr ← jsGet file "suggestedComments"
  let sc0 ← jsIndex scArr 0
  let commentsVal ← jsGet sc0 "comment"
  let comments ← jsMapM commentsVal parseCommentEntry
  .ok ⟨path0, analysis0, comments⟩

/-- Lines 290-311 of `analyzeCode`, from the raw model reply text to the
`CodeAnalysis` value: slice between the markers, `parseStringPromise`,
then the field-access chain.  There is no `try`/`catch` anywhere on this
path: any rejection or `TypeError` propagates to the caller. -/
def extractAnalysis (text : String) : Except JsErr CodeAnalysis := do
  let parsed ← parseStringModel (extractSpan text)
  let review ← jsGet parsed "review"
  let summaryArr ← jsGet review "summary"
  let summary0 ← jsIndex summaryArr 0
  let faArr ← jsGet review "fileAnalyses"
  let fa0 ← jsIndex faArr 0
  let fileVal ← jsGet fa0 "file"
  let entries ← jsMapM fileVal parseFileEntry
  let osArr ← jsGet review "overallSuggestions"
  let os0 ← jsIndex osArr 0
  let suggestions ← jsGet os0 "suggestion"
  .ok ⟨summary0, entries, suggestions⟩

/-! ## Review submission (`submitReview`, lines 316-352) -/

/-- One element of the `comments` array passed to `pulls.createReview`
(lines 318-324). -/
structure SubmittedComment where
  path : JsValue
  line : Option Int
  body : JsValue
deriving Repr

/-- The data of the `pulls.createReview` call: the review body markdown
and the inline comment list. -/
structure ReviewSubmission where
  body : String
  comments : List SubmittedComment
deriving Repr

/-- The per-file section of the review body template (lines 339-343):
`\n## ${file.path}\n${file.analysis}\n`. -/
def reviewFileSection (fa : FileAnalysisEntry) : String :=
  "\n## " ++ jsToString fa.path ++ "\n" ++ jsToString fa.analysis ++ "\n"

/-- The review body template literal (lines 333-350).  Building it maps
over `analysis.overallSuggestions`, which throws a `TypeError` when that
value is not an array. -/
def renderBody (analysis : CodeAnalysis) : Except JsErr String := do
  let suggestionLines ← jsMapM analysis.overallSuggestions
    (fun s => .ok ("- " ++ jsToString s))
  .ok ("# Code Review Summary\n\n" ++ jsToString analysis.summary ++ "\n\n"
    ++ joinSep "\n" (analysis.fileAnalyses.map reviewFileSection)
    ++ "\n\n## Overall Suggestions\n" ++ joinSep "\n" suggestionLines
    ++ "\n\n---\n*Generated by PR Review Bot*")

/-- `submitReview` (lines 316-352): flatten the suggested comments into
`(path, line, body)` triples, render the body, and return the data of the
`createReview` call.  No filtering of any kind is applied: neither file
paths nor line values are checked against anything. -/
def submitReviewData (analysis : CodeAnalysis) : Except JsErr ReviewSubmission := do
  let comments := analysis.fileAnalyses.flatMap (fun fa =>
    fa.suggestedComments.map (fun c => SubmittedComment.mk fa.path c.line c.body))
  let body ← renderBody analysis
  .ok ⟨body, comments⟩

/-- The review part of `handlePullRequestOpened` (lines 385-388) from the
model reply text onward: `analyzeCode`'s extraction followed by
`submitReview`. -/
def reviewPipeline (modelText : String) : Except JsErr ReviewSubmission := do
  let analysis ← extractAnalysis modelText
  submitReviewData analysis

/-- The webhook handler's `try`/`catch` (lines 420-435): a thrown error
anywhere in the pipeline is caught at the very boundary and answered with
HTTP 500; nothing inside the pipeline recovers. -/
def webhookStatus {α : Type} (r : Except JsErr α) : Nat :=
  match r with
  | .ok _ => 200
  | .error _ => 500

/-! ## Helper lemmas: string occurrence and joins -/

theorem strOccurs_refl (s : String) : strOccurs s s :=
  ⟨[], [], by simp⟩

theorem strOccurs_left {n x : String} (y : String) (h : strOccurs n x) :
    strOccurs n (x ++ y) := by
  obtain ⟨p, q, hd⟩ := h
  exact ⟨p, q ++ y.data, by simp [String.data_append, hd, List.append_assoc]⟩

theorem strOccurs_right {n y : String} (x : String) (h : strOccurs n y) :
    strOccurs n (x ++ y) := by
  obtain ⟨p, q, hd⟩ := h
  exact ⟨x.data ++ p, q, by simp [String.data_append, hd, List.append_assoc]⟩

theorem str_append_assoc (a b c : String) : a ++ b ++ c = a ++ (b ++ c) := by
  apply String.ext
  simp [String.data_append, List.append_assoc]

theorem strOccurs_joinSep {n x : String} {l : List String} (sep : String)
    (hx : x ∈ l) (h : strOccurs n x) : strOccurs n (joinSep sep l) := by
  induction l with
  | nil => cases hx
  | cons a as ih =>
    cases as with
    | nil =>
      have : x = a := by simpa using hx
      simpa [joinSep, ← this] using h
    | cons b bs =>
      rcases List.mem_cons.mp hx with hxa | hxas
      · exact hxa ▸ strOccurs_left _ h
      · exact strOccurs_right a (strOccurs_right sep (ih hxas))

theorem takeWhile_append_all {α : Type} {p : α → Bool} {xs ys : List α}
    (h : xs.all p = true) (h2 : ys.takeWhile p = []) :
    (xs ++ ys).takeWhile p = xs := by
  induction xs with
  | nil => simpa using h2
  | cons a as ih =>
    simp only [List.all_cons, Bool.and_eq_true] at h
    simp [List.takeWhile_cons, h.1, ih h.2]

theorem dropWhile_head_false {α : Type} {p : α → Bool} {l : List α} {c : α}
    {t : List α} (h : l.dropWhile p = c :: t) : p c = false := by
  induction l with
  | nil => simp at h
  | cons a as ih =>
    by_cases ha : p a
    · simp [List.dropWhile_cons, ha] at h; exact ih h
    · simp [List.dropWhile_cons, ha] at h; simpa [h.1.symm] using ha

/-! ## Helper lemmas: `jsParseInt` -/

theorem digitNotWs {c : Char} (h : c.isDigit = true) : isJsWs c = false := by
  simp only [isJsWs, Bool.or_eq_false_iff, decide_eq_false_iff_not]
  refine ⟨⟨⟨⟨⟨?_, ?_⟩, ?_⟩, ?_⟩, ?_⟩, ?_⟩ <;>
    (rintro rfl; exact absurd h (by decide))

theorem jsSign_other {cs : List Char} (h1 : cs.head? ≠ some '-')
    (h2 : cs.head? ≠ some '+') : jsSign cs = (1, cs) := by
  unfold jsSign
  split
  · simp at h1
  · simp at h2
  · rfl

theorem jsBase_dec {cs : List Char} (hx : ∀ t', cs ≠ '0' :: 'x' :: t')
    (hX : ∀ t', cs ≠ '0' :: 'X' :: t') : jsBase cs = (10, cs) := by
  unfold jsBase
  split
  · next t' => exact absurd rfl (hx t')
  · next t' => exact absurd rfl (hX t')
  · rfl

theorem hexDigitVal_of_digit {c : Char} (h : c.isDigit = true) :
    hexDigitVal c = ((c.toNat - '0'.toNat : Nat) : Int) := by
  simp [hexDigitVal, h]

theorem foldl_hex_eq_dec (ds : List Char) (h : ds.all Char.isDigit = true) :
    ∀ a : Int, ds.foldl (fun a c => a * 10 + hexDigitVal c) a
      = ds.foldl (fun a c => a * 10 + ((c.toNat - '0'.toNat : Nat) : Int)) a := by
  induction ds with
  | nil => intro a; rfl
  | cons c cs ih =>
    simp only [List.all_cons, Bool.and_eq_true] at h
    intro a
    simp only [List.foldl_cons]
    rw [hexDigitVal_of_digit h.1]
    exact ih h.2 _

/-- On an input that starts with decimal digits, is not a `0x`/`0X` hex
prefix, and whose remainder starts with a non-digit, `parseInt` returns
the positional value of the digit run. -/
theorem jsParseInt_decimal_of_digits (ds t : List Char) (hne : ds ≠ [])
    (hdig : ds.all Char.isDigit = true) (ht : t.takeWhile Char.isDigit = [])
    (hhex : ¬(ds = ['0'] ∧ (t.head? = some 'x' ∨ t.head? = some 'X'))) :
    jsParseInt ⟨ds ++ t⟩ = some (decValue ds) := by
  obtain ⟨d, ds', rfl⟩ := List.exists_cons_of_ne_nil hne
  have hd : d.isDigit = true := by
    simp only [List.all_cons, Bool.and_eq_true] at hdig; exact hdig.1
  have hds' : ds'.all Char.isDigit = true := by
    simp only [List.all_cons, Bool.and_eq_true] at hdig; exact hdig.2
  have hdata : (String.mk (d :: (ds' ++ t))).data = d :: (ds' ++ t) := rfl
  have hdw : List.dropWhile isJsWs (d :: (ds' ++ t)) = d :: (ds' ++ t) := by
    rw [List.dropWhile_cons]
    simp [digitNotWs hd]
  have hsign : jsSign (d :: (ds' ++ t)) = (1, d :: (ds' ++ t)) := by
    apply jsSign_other
    · intro h
      rw [List.head?_cons] at h
      injection h with h
      subst h
      exact absurd hd (by decide)
    · intro h
      rw [List.head?_cons] at h
      injection h with h
      subst h
      exact absurd hd (by decide)
  have hbase : jsBase (d :: (ds' ++ t)) = (10, d :: (ds' ++ t)) := by
    apply jsBase_dec <;>
      (intro t' heq
       injection heq with he1 he2
       subst he1
       cases ds' with
       | nil =>
         simp only [List.nil_append] at he2
         exact hhex ⟨rfl, by simp [he2]⟩
       | cons e es =>
         injection he2 with he3 _
         subst he3
         simp [List.all_cons] at hds')
  simp only [jsParseInt, List.cons_append, hdata, hdw, hsign, hbase]
  have h1016 : (fun c => if (10 : Int) = 16 then isHexDigitCh c else c.isDigit)
      = (fun c : Char => c.isDigit) := by
    funext c
    rw [if_neg]
    norm_num
  rw [h1016]
  have htw : List.takeWhile Char.isDigit (d :: (ds' ++ t)) = d :: ds' := by
    have h := takeWhile_append_all (p := Char.isDigit) hdig ht
    simpa using h
  rw [htw]
  simp only [List.isEmpty_cons, if_false, Bool.false_eq_true]
  rw [one_mul, foldl_hex_eq_dec _ hdig]
  rfl

/-! ## Helper lemmas: review submission pass-through -/

theorem renderBody_ok {a : CodeAnalysis} {b : String} (h : renderBody a = .ok b) :
    ∃ sl, jsMapM a.overallSuggestions (fun s => .ok ("- " ++ jsToString s)) = .ok sl
      ∧ b = "# Code Review Summary\n\n" ++ jsToString a.summary ++ "\n\n"
          ++ joinSep "\n" (a.fileAnalyses.map reviewFileSection)
          ++ "\n\n## Overall Suggestions\n" ++ joinSep "\n" sl
          ++ "\n\n---\n*Generated by PR Review Bot*" := by
  cases h' : jsMapM a.overallSuggestions (fun s => .ok ("- " ++ jsToString s)) with
  | error e =>
    rw [renderBody, h'] at h
    cases h
  | ok sl =>
    rw [renderBody, h'] at h
    refine ⟨sl, rfl, ?_⟩
    cases h
    rfl

theorem submitReviewData_ok {a : CodeAnalysis} {sub : ReviewSubmission}
    (h : submitReviewData a = .ok sub) :
    sub.comments = a.fileAnalyses.flatMap (fun fa =>
      fa.suggestedComments.map (fun c => SubmittedComment.mk fa.path c.line c.body))
    ∧ renderBody a = .ok sub.body := by
  cases hr : renderBody a with
  | error e =>
    rw [submitReviewData, hr] at h
    cases h
  | ok b =>
    rw [submitReviewData, hr] at h
    have h2 : Except.ok (ε := JsErr) (ReviewSubmission.mk b
        (a.fileAnalyses.flatMap (fun fa =>
          fa.suggestedComments.map (fun c => SubmittedComment.mk fa.path c.line c.body)))) = .ok sub := h
    injection h2 with h3
    cases h3
    exact ⟨rfl, rfl⟩

theorem occ_section_path (fa : FileAnalysisEntry) :
    strOccurs ("## " ++ jsToString fa.path) (reviewFileSection fa) := by
  refine ⟨['\n'], ("\n" ++ jsToString fa.analysis ++ "\n").data, ?_⟩
  have h0 : ("\n## " : String).data = '\n' :: ("## " : String).data := rfl
  simp [reviewFileSection, String.data_append, List.append_assoc, h0]

theorem comment_mem_flat {a : CodeAnalysis} {fa : FileAnalysisEntry}
    {c : SuggestedComment} (hfa : fa ∈ a.fileAnalyses) (hc : c ∈ fa.suggestedComments) :
    SubmittedComment.mk fa.path c.line c.body ∈ a.fileAnalyses.flatMap (fun fa =>
      fa.suggestedComments.map (fun c => SubmittedComment.mk fa.path c.line c.body)) := by
  rw [List.mem_flatMap]
  exact ⟨fa, hfa, List.mem_map_of_mem _ hc⟩

theorem occ_body_path {a : CodeAnalysis} {b : String} (h : renderBody a = .ok b)
    {fa : FileAnalysisEntry} (hfa : fa ∈ a.fileAnalyses) :
    strOccurs ("## " ++ jsToString fa.path) b := by
  obtain ⟨sl, _, rfl⟩ := renderBody_ok h
  have hJ : strOccurs ("## " ++ jsToString fa.path)
      (joinSep "\n" (a.fileAnalyses.map reviewFileSection)) :=
    strOccurs_joinSep _ (List.mem_map_of_mem _ hfa) (occ_section_path fa)
  exact strOccurs_left _ (strOccurs_left _ (strOccurs_left _
    (strOccurs_right _ hJ)))

/-! ## Helper lemmas: extraction failure on missing or inverted markers -/

theorem parseElem_nil (fuel : Nat) : parseElem (fuel + 1) [] = .error "expected element" := rfl

theorem parseElem_single (fuel : Nat) (c : Char) : isErr (parseElem (fuel + 1) [c]) = true := by
  by_cases hc : c = '<'
  · subst hc; rfl
  · unfold parseElem
    split
    · next rest heq =>
      injection heq with h1 _
      exact absurd h1 hc
    · rfl

theorem startsWith_iff (pat hay : List Char) :
    startsWith hay pat = true ↔ ∃ r, hay = pat ++ r := by
  induction pat generalizing hay with
  | nil => simp [startsWith]
  | cons p ps ih =>
    cases hay with
    | nil =>
      simp only [startsWith]
      constructor
      · intro h; cases h
      · rintro ⟨r, hr⟩; cases hr
    | cons c t =>
      simp only [startsWith, Bool.and_eq_true, beq_iff_eq, ih]
      constructor
      · rintro ⟨rfl, r, rfl⟩; exact ⟨r, rfl⟩
      · rintro ⟨r, hr⟩
        injection hr with h1 h2
        exact ⟨h1, r, h2⟩

theorem subIndex_some {hay pat : List Char} {n : Nat} (h : subIndex hay pat = some n) :
    ∃ u v, hay = u ++ pat ++ v ∧ u.length = n := by
  induction hay generalizing n with
  | nil =>
    unfold subIndex at h
    split at h
    · next hsw =>
      obtain ⟨r, hr⟩ := (startsWith_iff pat []).mp hsw
      injection h with hn
      exact ⟨[], r, by simpa using hr, hn ▸ rfl⟩
    · cases h
  | cons c t ih =>
    unfold subIndex at h
    split at h
    · next hsw =>
      obtain ⟨r, hr⟩ := (startsWith_iff pat (c :: t)).mp hsw
      injection h with hn
      exact ⟨[], r, by simpa using hr, hn ▸ rfl⟩
    · cases hsub : subIndex t pat with
      | none => rw [hsub] at h; cases h
      | some m =>
        rw [hsub] at h
        have h2 : m + 1 = n := by simpa using h
        obtain ⟨u, v, hu, hl⟩ := ih hsub
        exact ⟨c :: u, v, by simp [hu], by simp [hl, ← h2]⟩

theorem xmlParse_short (s : String) (h : s.data.length ≤ 1) :
    isErr (xmlParse s) = true := by
  have hlen : (s.data.dropWhile isXmlWs).length ≤ 1 :=
    le_trans (List.dropWhile_sublist isXmlWs).length_le h
  rcases hcs : s.data.dropWhile isXmlWs with _ | ⟨c, t⟩
  · simp only [xmlParse, hcs]
    rfl
  · rw [hcs] at hlen
    have ht : t = [] := by
      simp only [List.length_cons] at hlen
      exact List.eq_nil_of_length_eq_zero (by omega)
    subst ht
    simp only [xmlParse, hcs, List.length_cons, List.length_nil]
    have he := parseElem_single (2 * (0 + 1) + 4 - 1) c
    rcases hpe : parseElem (2 * (0 + 1) + 4 - 1 + 1) [c] with e | v
    · rfl
    · rw [hpe] at he
      cases he

theorem xmlParse_openMarker_take (k : Nat) (hk : k ≤ 8) :
    isErr (xmlParse ⟨openMarker.data.take k⟩) = true := by
  interval_cases k <;> decide

theorem jsSlice_neg_start_short (s : String) (stop : Int) :
    (jsSlice s (-1) stop).data.length ≤ 1 := by
  have hb : s.data.length - jsSliceBound s.data.length (-1) ≤ 1 := by
    simp only [jsSliceBound]
    split
    · rcases le_total ((s.data.length : Int) + -1) 0 with hle | hle
      · rw [max_eq_right hle]
        omega
      · rw [max_eq_left hle]
        omega
    · omega
  simp only [jsSlice, List.length_take, List.length_drop]
  exact le_trans (min_le_right _ _) hb

theorem parseStringModel_err_of (s : String) (h : isErr (xmlParse s) = true) :
    isErr (parseStringModel s) = true := by
  rcases hx : xmlParse s with e | x
  · simp [parseStringModel, hx, isErr]
  · rw [hx] at h
    cases h

theorem extractAnalysis_err_of_parse (text : String)
    (h : isErr (parseStringModel (extractSpan text)) = true) :
    isErr (extractAnalysis text) = true := by
  rcases hp : parseStringModel (extractSpan text) with e | v
  · simp only [extractAnalysis, hp]
    rfl
  · rw [hp] at h
    cases h

theorem extractAnalysis_err_of_short (text : String)
    (h : (extractSpan text).data.length ≤ 1) :
    isErr (extractAnalysis text) = true :=
  extractAnalysis_err_of_parse text (parseStringModel_err_of _ (xmlParse_short _ h))

theorem jsIndexOf_eq_neg_one {text pat : String} (h : containsStr text pat = false) :
    jsIndexOf text pat = -1 := by
  have hn : subIndex text.data pat.data = none := by
    simpa [containsStr, Option.isSome_iff_exists] using h
  simp [jsIndexOf, hn]

theorem containsStr_some {text pat : String} (h : ¬ containsStr text pat = false) :
    ∃ n, subIndex text.data pat.data = some n := by
  rcases hs : subIndex text.data pat.data with _ | n
  · exact absurd (by simp [containsStr, hs]) h
  · exact ⟨n, rfl⟩

theorem jsSlice_empty_of_le {s : String} {start stop : Int} (h0 : 0 ≤ stop)
    (h : stop ≤ start) : (jsSlice s start stop).data.length = 0 := by
  have hs0 : 0 ≤ start := le_trans h0 h
  simp only [jsSlice, jsSliceBound, List.length_take, List.length_drop,
    if_neg (not_lt.mpr hs0), if_neg (not_lt.mpr h0)]
  omega

theorem jsSlice_at_occurrence {text : String} {u v : List Char} {m : Nat}
    (hsplit : text.data = u ++ openMarker.data ++ v) (hm : u.length = m) :
    jsSlice text (m : Int) 8 = ⟨openMarker.data.take (8 - m)⟩ := by
  have hop : openMarker.data.length = 8 := by decide
  have hlen : text.data.length = m + 8 + v.length := by
    rw [hsplit]
    simp only [List.length_append, hm, hop]
  have hb : jsSliceBound text.data.length (m : Int) = m := by
    rw [jsSliceBound, if_neg (by omega : ¬ ((m : Int) < 0))]
    omega
  have he : jsSliceBound text.data.length 8 = 8 := by
    rw [jsSliceBound, if_neg (by omega : ¬ ((8 : Int) < 0))]
    omega
  simp only [jsSlice, hb, he]
  congr 1
  have hdrop : text.data.drop m = openMarker.data ++ v := by
    rw [hsplit, List.append_assoc, ← hm, List.drop_left]
  rw [hdrop, List.take_append_eq_append_take, hop,
    show 8 - m - 8 = 0 from by omega, List.take_zero, List.append_nil]

theorem extract_err_noOpen (text : String) (h : containsStr text openMarker = false) :
    isErr (extractAnalysis text) = true := by
  apply extractAnalysis_err_of_short
  rw [extractSpan, jsIndexOf_eq_neg_one h]
  exact jsSlice_neg_start_short _ _

theorem extract_err_noClose (text : String) (h : containsStr text closeMarker = false) :
    isErr (extractAnalysis text) = true := by
  by_cases ho : containsStr text openMarker = false
  · exact extract_err_noOpen text ho
  · obtain ⟨m, hm⟩ := containsStr_some ho
    obtain ⟨u, v, hsplit, hlen⟩ := subIndex_some hm
    have hio : jsIndexOf text openMarker = (m : Int) := by simp [jsIndexOf, hm]
    have h9 : jsIndexOf text closeMarker + (closeMarker.length : Int) = 8 := by
      rw [jsIndexOf_eq_neg_one h]
      decide
    have hspan : extractSpan text = ⟨openMarker.data.take (8 - m)⟩ := by
      rw [extractSpan, hio, h9]
      exact jsSlice_at_occurrence hsplit hlen
    apply extractAnalysis_err_of_parse
    rw [hspan]
    exact parseStringModel_err_of _ (xmlParse_openMarker_take (8 - m) (Nat.sub_le _ _))

theorem extract_err_inverted (text : String)
    (h : jsIndexOf text closeMarker + (closeMarker.length : Int) ≤ jsIndexOf text openMarker) :
    isErr (extractAnalysis text) = true := by
  by_cases hc : containsStr text closeMarker = false
  · exact extract_err_noClose text hc
  · obtain ⟨ic, hic⟩ := containsStr_some hc
    have hicv : jsIndexOf text closeMarker = (ic : Int) := by simp [jsIndexOf, hic]
    by_cases ho : containsStr text openMarker = false
    · rw [jsIndexOf_eq_neg_one ho, hicv] at h
      have : (closeMarker.length : Int) = 9 := by decide
      omega
    · obtain ⟨io, hio⟩ := containsStr_some ho
      have hiov : jsIndexOf text openMarker = (io : Int) := by simp [jsIndexOf, hio]
      apply extractAnalysis_err_of_short
      rw [extractSpan, hiov, hicv]
      rw [hicv, hiov] at h
      have h0 : (0 : Int) ≤ (ic : Int) + (closeMarker.length : Int) := by
        have : (closeMarker.length : Int) = 9 := by decide
        omega
      rw [jsSlice_empty_of_le h0 h]
      omega

/-! ## Helper lemmas: pipeline error propagation -/

theorem reviewPipeline_err_of (text : String) (h : isErr (extractAnalysis text) = true) :
    isErr (reviewPipeline text) = true := by
  rcases he : extractAnalysis text with e | a
  · simp only [reviewPipeline, he]
    rfl
  · rw [he] at h
    cases h

theorem webhookStatus_of_err {α : Type} (r : Except JsErr α) (h : isErr r = true) :
    webhookStatus r = 500 := by
  rcases r with e | v
  · rfl
  · cases h

theorem extractAnalysis_err_propagate (text : String) (e : JsErr)
    (h : parseStringModel (extractSpan text) = .error e) :
    extractAnalysis text = .error e := by
  unfold extractAnalysis
  rw [h]
  rfl

/-! ## Claims -/

/-- C1, amended: the code has no `extractionFailed` fallback at all.  For
every raw model reply text that contains no opening marker, no closing
marker, or whose closing marker's end offset is at or before the opening
marker's start offset, `analyzeCode`'s extraction (slice by `indexOf`
results, then parse) raises: the sliced fragment fails XML parsing and the
rejection propagates to the caller. -/
theorem c1_extraction_error_on_missing_markers (text : String)
    (h : containsStr text openMarker = false ∨ containsStr text closeMarker = false
      ∨ jsIndexOf text closeMarker + (closeMarker.length : Int) ≤ jsIndexOf text openMarker) :
    isErr (extractAnalysis text) = true := by
  rcases h with h | h | h
  · exact extract_err_noOpen text h
  · exact extract_err_noClose text h
  · exact extract_err_inverted text h

/-- Witness for C1 at the markerless reply `"hello"`. -/
theorem c1_witness : isErr (extractAnalysis "hello") = true :=
  c1_extraction_error_on_missing_markers "hello" (Or.inl rfl)

/-- Counterexample to C1 as stated: at the markerless reply `"hello"` the
extraction raises a parse error instead of returning an empty
`ParsedReviewBlock` with `extractionFailed = true` (no such value exists
in the code). -/
theorem c1_counterexample :
    extractAnalysis "hello" = .error (.parseError "expected element")
    ∧ containsStr "hello" openMarker = false := ⟨rfl, rfl⟩

set_option maxRecDepth 8192 in
/-- C2, amended: nothing is caught on the extraction path.  A structural
parse failure of the sliced span propagates unchanged to the caller, and a
required top-level field that is absent after a successful parse (here:
`fileAnalyses` missing, and `overallSuggestions` missing) raises a
`TypeError` at the field-access chain instead of producing a fallback. -/
theorem c2_parse_and_field_errors_propagate :
    (∀ (text : String) (e : JsErr),
      parseStringModel (extractSpan text) = .error e → extractAnalysis text = .error e)
    ∧ extractAnalysis "<review><summary>S</summary></review>"
        = .error (.typeError "cannot read properties of undefined (reading 0)")
    ∧ extractAnalysis "<review><summary>S</summary><fileAnalyses><file><path>a.ts</path><analysis>A</analysis><suggestedComments><comment><line>1</line><body>B</body></comment></suggestedComments></file></fileAnalyses></review>"
        = .error (.typeError "cannot read properties of undefined (reading 0)") :=
  ⟨extractAnalysis_err_propagate, rfl, rfl⟩

/-- Witness for C2 on a span with a mismatched close tag. -/
theorem c2_witness :
    extractAnalysis "<review><summary></review>"
      = .error (.parseError "mismatched close tag") :=
  c2_parse_and_field_errors_propagate.1 "<review><summary></review>"
    (.parseError "mismatched close tag") rfl

/-- Counterexample to C2 as stated: a malformed span and a span missing
all required fields both raise instead of yielding the empty-fallback
`ParsedReviewBlock`. -/
theorem c2_counterexample :
    extractAnalysis "<review></wrong></review>" = .error (.parseError "mismatched close tag")
    ∧ extractAnalysis "<review><bogus>hi</bogus></review>"
        = .error (.typeError "cannot read properties of undefined (reading 0)") :=
  ⟨rfl, rfl⟩

/-- C3, amended: when the model reply is plain prose with no markers, the
pipeline does not complete with a fallback artifact: extraction raises,
the error propagates out of the review pipeline (no review is submitted),
and it is caught only by the webhook boundary, which answers HTTP 500. -/
theorem c3_pipeline_error_on_markerless_reply (text : String)
    (h : containsStr text openMarker = false)
    (_hc : containsStr text closeMarker = false) :
    isErr (reviewPipeline text) = true ∧ webhookStatus (reviewPipeline text) = 500 := by
  have he := reviewPipeline_err_of text (extract_err_noOpen text h)
  exact ⟨he, webhookStatus_of_err _ he⟩

/-- Witness for C3 at a concrete markerless prose reply. -/
theorem c3_witness :
    isErr (reviewPipeline "Thanks for the PR!") = true
    ∧ webhookStatus (reviewPipeline "Thanks for the PR!") = 500 :=
  c3_pipeline_error_on_markerless_reply "Thanks for the PR!" rfl rfl

/-- Counterexample to C3 as stated: on markerless prose the pipeline
raises (and the webhook answers 500); it does not produce an artifact
with a fixed fallback summary. -/
theorem c3_counterexample :
    reviewPipeline "Here is my review of the changes."
      = .error (.parseError "expected element")
    ∧ webhookStatus (reviewPipeline "Here is my review of the changes.") = 500 :=
  ⟨rfl, rfl⟩

/-- C4, amended: `submitReview` performs no reconciliation against the
change set (it does not even receive one).  Every file-analysis entry is
kept: its comments all appear in the submitted comment list and its path
is rendered as a section heading of the review body, whatever the path. -/
theorem c4_file_entries_kept_regardless_of_change_set
    (a : CodeAnalysis) (sub : ReviewSubmission) (h : submitReviewData a = .ok sub) :
    ∀ fa ∈ a.fileAnalyses,
      (∀ c ∈ fa.suggestedComments,
        SubmittedComment.mk fa.path c.line c.body ∈ sub.comments)
      ∧ strOccurs ("## " ++ jsToString fa.path) sub.body := by
  intro fa hfa
  obtain ⟨hc, hb⟩ := submitReviewData_ok h
  refine ⟨fun c hcm => ?_, occ_body_path hb hfa⟩
  rw [hc]
  exact comment_mem_flat hfa hcm

/-- Witness for C4 at a concrete analysis whose only path is
`nonexistent.ts`. -/
theorem c4_witness :
    SubmittedComment.mk (JsValue.str "nonexistent.ts") (some 1) (JsValue.str "c") ∈
      [SubmittedComment.mk (JsValue.str "nonexistent.ts") (some 1) (JsValue.str "c")] := by
  have h := c4_file_entries_kept_regardless_of_change_set
    ⟨.str "s", [⟨.str "nonexistent.ts", .str "a", [⟨some 1, .str "c"⟩]⟩], .arr []⟩
    ⟨"# Code Review Summary\n\ns\n\n\n## nonexistent.ts\na\n\n\n## Overall Suggestions\n\n\n---\n*Generated by PR Review Bot*",
      [⟨.str "nonexistent.ts", some 1, .str "c"⟩]⟩ rfl
  have h2 := (h ⟨.str "nonexistent.ts", .str "a", [⟨some 1, .str "c"⟩]⟩ (by simp)).1
    ⟨some 1, .str "c"⟩ (by simp)
  exact h2

/-- Counterexample to C4 as stated: a file-analysis entry whose path
`nonexistent.ts` is absent from the change set is passed through to the
review submission, not omitted. -/
theorem c4_counterexample :
    (submitReviewData ⟨.str "s",
        [⟨.str "nonexistent.ts", .str "a", [⟨some 1, .str "c"⟩]⟩], .arr []⟩).map
      ReviewSubmission.comments
      = .ok [⟨.str "nonexistent.ts", some 1, .str "c"⟩]
    ∧ "nonexistent.ts" ∉
        ([⟨"a.ts", "p", "modified", 1, 0, some "x"⟩] : List FileChange).map
          FileChange.filename :=
  ⟨rfl, by decide⟩

/-- C5, amended: no line-value validation occurs at submission.  Every
inline comment is kept, including those whose line field parsed to `NaN`
(modelled `none`); they are passed to the review submission unchanged. -/
theorem c5_nan_line_comments_kept
    (a : CodeAnalysis) (sub : ReviewSubmission) (h : submitReviewData a = .ok sub) :
    ∀ fa ∈ a.fileAnalyses, ∀ c ∈ fa.suggestedComments, c.line = none →
      SubmittedComment.mk fa.path none c.body ∈ sub.comments := by
  intro fa hfa c hcm hline
  obtain ⟨hc, _⟩ := submitReviewData_ok h
  rw [hc, ← hline]
  exact comment_mem_flat hfa hcm

/-- Witness for C5 at a concrete analysis with a `NaN`-line comment. -/
theorem c5_witness :
    SubmittedComment.mk (JsValue.str "a.ts") none (JsValue.str "B") ∈
      [SubmittedComment.mk (JsValue.str "a.ts") none (JsValue.str "B")] := by
  have h := c5_nan_line_comments_kept
    ⟨.str "S", [⟨.str "a.ts", .str "A", [⟨none, .str "B"⟩]⟩], .arr [.str "X"]⟩
    ⟨"# Code Review Summary\n\nS\n\n\n## a.ts\nA\n\n\n## Overall Suggestions\n- X\n\n---\n*Generated by PR Review Bot*",
      [⟨.str "a.ts", none, .str "B"⟩]⟩ rfl
    ⟨.str "a.ts", .str "A", [⟨none, .str "B"⟩]⟩ (by simp)
    ⟨none, .str "B"⟩ (by simp) rfl
  exact h

set_option maxRecDepth 8192 in
/-- Counterexample to C5 as stated: on a well-formed block whose inline
comment has line field `"abc"`, the end-to-end pipeline keeps that comment
(with `NaN` line) in the submission instead of dropping it. -/
theorem c5_counterexample :
    (reviewPipeline "<review><summary>S</summary><fileAnalyses><file><path>a.ts</path><analysis>A</analysis><suggestedComments><comment><line>abc</line><body>B</body></comment></suggestedComments></file></fileAnalyses><overallSuggestions><suggestion>X</suggestion></overallSuggestions></review>").map
        ReviewSubmission.comments
      = .ok [⟨.str "a.ts", none, .str "B"⟩]
    ∧ jsParseInt "abc" = none :=
  ⟨rfl, rfl⟩

/-- C6: context assembly maps each listed file to exactly one `FileChange`
record; a content-fetch failure (modelled by `fetchContent` returning
`none`) only makes that file's `content` absent, never aborts assembly,
and the record of file `i` depends on the fetch result for file `i`
alone. -/
theorem c6_per_file_fetch_failure_isolated (fetchContent : String → Option String)
    (files : List RawPullFile) :
    (assembleFiles fetchContent files).length = files.length
    ∧ (∀ (i : Nat) (f : RawPullFile), files[i]? = some f →
        (assembleFiles fetchContent files)[i]? =
          some ⟨f.filename, f.patch, f.status, f.additions, f.deletions,
            fetchContent f.filename⟩)
    ∧ (∀ (fetchContent' : String → Option String) (i : Nat) (f : RawPullFile),
        files[i]? = some f → fetchContent f.filename = fetchContent' f.filename →
        (assembleFiles fetchContent files)[i]?
          = (assembleFiles fetchContent' files)[i]?) := by
  refine ⟨by simp [assembleFiles], ?_, ?_⟩
  · intro i f hf
    simp [assembleFiles, List.getElem?_map, hf, assembleFile]
  · intro fetchContent' i f hf heq
    simp [assembleFiles, List.getElem?_map, hf, assembleFile, heq]

/-- Witness for C6: a failing fetch yields the record with absent
content. -/
theorem c6_witness :
    (assembleFiles (fun _ => none) [⟨"a.ts", "p", "added", 1, 0⟩]).length = 1
    ∧ (assembleFiles (fun _ => none) [⟨"a.ts", "p", "added", 1, 0⟩])[0]?
        = some ⟨"a.ts", "p", "added", 1, 0, none⟩ := by
  have h := c6_per_file_fetch_failure_isolated (fun _ => none)
    [⟨"a.ts", "p", "added", 1, 0⟩]
  exact ⟨h.1, h.2.1 0 ⟨"a.ts", "p", "added", 1, 0⟩ rfl⟩

/-- C7: rendering the aggregate review body for the artifact
`{summary := "S", fileAnalyses := [{path := "a.ts", analysis := "A"}],
suggestions := ["X"]}` yields a string containing `"S"`, `"a.ts"`, `"A"`,
`"X"` in that relative order. -/
theorem c7_render_contains_fields_in_order :
    ∃ a b c d e : String,
      (submitReviewData ⟨.str "S", [⟨.str "a.ts", .str "A", []⟩], .arr [.str "X"]⟩).map
          ReviewSubmission.body
        = Except.ok (a ++ "S" ++ b ++ "a.ts" ++ c ++ "A" ++ d ++ "X" ++ e) :=
  ⟨"# Code Review Summary\n\n", "\n\n\n## ", "\n",
    "\n\n\n## Overall Suggestions\n- ", "\n\n---\n*Generated by PR Review Bot*", rfl⟩

/-- C8, amended: the prompt builder is a pure function whose output states
the title and every commit message verbatim and, for each file, its path,
change kind (status), diff and the content slot; the fixed placeholder
`N/A` fills the content slot exactly when the content is absent or the
empty string (JavaScript `||` treats both as falsy), and a nonempty
present content appears verbatim. -/
theorem c8_prompt_contains_context_fields (title : String) (commits : List String)
    (files : List FileChange) :
    strOccurs title (analyzePrompt title files commits)
    ∧ (∀ m ∈ commits, strOccurs m (analyzePrompt title files commits))
    ∧ (∀ f ∈ files,
        strOccurs f.filename (analyzePrompt title files commits)
        ∧ strOccurs f.status (analyzePrompt title files commits)
        ∧ strOccurs f.patch (analyzePrompt title files commits)
        ∧ strOccurs (jsOrElse f.content contentPlaceholder)
            (analyzePrompt title files commits))
    ∧ (∀ f : FileChange, (f.content = none ∨ f.content = some "") →
        jsOrElse f.content contentPlaceholder = contentPlaceholder)
    ∧ (∀ (f : FileChange) (s : String), f.content = some s → s ≠ "" →
        jsOrElse f.content contentPlaceholder = s) := by
  refine ⟨?_, ?_, ?_, ?_, ?_⟩
  · simp only [analyzePrompt]
    exact strOccurs_left _ (strOccurs_left _ (strOccurs_left _ (strOccurs_left _
      (strOccurs_left _ (strOccurs_right _ (strOccurs_refl _))))))
  · intro m hm
    simp only [analyzePrompt]
    have h1 : strOccurs m ("- " ++ m) := strOccurs_right _ (strOccurs_refl _)
    have h2 : strOccurs m (joinSep "\n" (commits.map (fun msg => "- " ++ msg))) :=
      strOccurs_joinSep _ (List.mem_map_of_mem _ hm) h1
    exact strOccurs_left _ (strOccurs_left _ (strOccurs_left _ (strOccurs_right _ h2)))
  · intro f hf
    have hmem := List.mem_map_of_mem fileSection hf
    have hjf : ∀ n : String, strOccurs n (fileSection f) →
        strOccurs n (analyzePrompt title files commits) := by
      intro n hn
      simp only [analyzePrompt]
      exact strOccurs_left _ (strOccurs_right _ (strOccurs_joinSep _ hmem hn))
    refine ⟨hjf _ ?_, hjf _ ?_, hjf _ ?_, hjf _ ?_⟩
    · simp only [fileSection]
      exact strOccurs_left _ (strOccurs_left _ (strOccurs_left _ (strOccurs_left _
        (strOccurs_left _ (strOccurs_left _ (strOccurs_left _
          (strOccurs_right _ (strOccurs_refl _))))))))
    · simp only [fileSection]
      exact strOccurs_left _ (strOccurs_left _ (strOccurs_left _ (strOccurs_left _
        (strOccurs_left _ (strOccurs_right _ (strOccurs_refl _))))))
    · simp only [fileSection]
      exact strOccurs_left _ (strOccurs_left _ (strOccurs_left _
        (strOccurs_right _ (strOccurs_refl _))))
    · simp only [fileSection]
      exact strOccurs_left _ (strOccurs_right _ (strOccurs_refl _))
  · intro f h
    rcases h with h | h <;> simp [jsOrElse, h]
  · intro f s h hs
    simp [jsOrElse, h, hs]

/-- Witness for C8 at a one-commit context and a file with nonempty
content. -/
theorem c8_witness :
    strOccurs "m1" (analyzePrompt "T" [] ["m1"])
    ∧ jsOrElse (some "body text") contentPlaceholder = "body text" := by
  have h := c8_prompt_contains_context_fields "T" ["m1"] []
  exact ⟨h.2.1 "m1" (by decide), h.2.2.2.2 ⟨"x", "", "", 0, 0, some "body text"⟩
    "body text" rfl (by decide)⟩

/-- Counterexample to C8 as stated ("placeholder only when content is
absent"): a file whose content is present but empty produces an identical
prompt to the same file with absent content, so the placeholder also
appears for present-but-empty content. -/
theorem c8_counterexample :
    analyzePrompt "t" [⟨"a.ts", "p", "modified", 1, 0, some ""⟩] []
      = analyzePrompt "t" [⟨"a.ts", "p", "modified", 1, 0, none⟩] []
    ∧ (some "" ≠ (none : Option String)) := ⟨rfl, by decide⟩

/-- C9: `calculateCosts` is a pure function of the token counts: with
`p` prompt tokens, `c` completion tokens and optional cached count `k`
(defaulting to 0), it returns `k * 1.5 / 1e6`, `(p - k) * 3 / 1e6`,
`c * 12 / 1e6`, and their exact sum. -/
theorem c9_calculateCosts_formula (p c : ℚ) (k : Option ℚ) :
    calculateCosts ⟨p, c⟩ k =
      ⟨(k.getD 0) * (3 / 2) / 1000000,
       (p - k.getD 0) * 3 / 1000000,
       c * 12 / 1000000,
       (k.getD 0) * (3 / 2) / 1000000 + (p - k.getD 0) * 3 / 1000000
         + c * 12 / 1000000⟩ := by
  simp only [calculateCosts, CostBreakdown.mk.injEq]
  refine ⟨by ring, by ring, by ring, by ring⟩

/-- C10, amended: a line field made of decimal digits followed by
non-digits parses to the value of its digit prefix, except through the
hexadecimal `0x`/`0X` escape of `parseInt` (`"0xff"` gives 255, `"0x"`
gives `NaN`), which the digit-prefix rule excludes. -/
theorem c10_parseInt_line_prefix :
    (∀ (ds t : List Char), ds ≠ [] → ds.all Char.isDigit = true →
      t.takeWhile Char.isDigit = [] →
      ¬(ds = ['0'] ∧ (t.head? = some 'x' ∨ t.head? = some 'X')) →
      jsParseInt ⟨ds ++ t⟩ = some (decValue ds))
    ∧ jsParseInt "0xff" = some 255
    ∧ jsParseInt "0x" = none :=
  ⟨jsParseInt_decimal_of_digits, rfl, rfl⟩

/-- Witness for C10: `"12abc"` parses to 12. -/
theorem c10_witness : jsParseInt "12abc" = some 12 := by
  have h := c10_parseInt_line_prefix.1 ['1', '2'] ['a', 'b', 'c']
    (by decide) (by decide) (by decide) (by decide)
  exact h

/-- Counterexample to C10 as stated: the line field `"0x10"` begins with
the digit `0` followed by non-digits, yet extraction records 16 (the hex
value), not the numeric prefix 0. -/
theorem c10_counterexample :
    parseCommentEntry (.obj [("line", .arr [.str "0x10"]), ("body", .arr [.str "b"])])
      = .ok ⟨some 16, .str "b"⟩
    ∧ some (16 : Int) ≠ some (decValue ['0']) :=
  ⟨rfl, by decide⟩
